import Mathlib

/-!
Formal model of the real-time event distribution and cache-consistency layer
of the delivery-executive chatbot backend.

The definitions below are a shallow embedding of the Python source:
  * `services/websocket_manager.py` — `ConnectionManager` (connect, disconnect,
    send_personal_message, subscribe_to_channel, unsubscribe_from_channel,
    broadcast_to_channel), the Redis-listener relay envelope, the
    `WebSocketHandler.location_update` branch, and
    `NotificationService.notify_delivery_status_change`;
  * `services/redis_service.py` — `set_cache`, `get_cache`, `delete_cache`,
    `publish_delivery_update`, `check_rate_limit`;
  * `services/delivery_service.py` — the cache-invalidation step of
    `update_delivery_status`.

Python dictionaries are embedded as association lists (an insert erases any
older binding, so at most one binding per key is ever observable), Python sets
as lists with membership-checked insertion, and fallible Redis client calls as
`Except`-valued functions.  Time is an explicit natural-number parameter where
TTL semantics matter.
-/

/-! ### Association-list maps (embedding of Python `dict`) -/

/-- Lookup in an association list: the embedding of `d[k]` / `k in d`. -/
def lookupA {α β : Type} [DecidableEq α] : List (α × β) → α → Option β
  | [], _ => none
  | kv :: rest, k' => if k' = kv.1 then some kv.2 else lookupA rest k'

/-- Insert-or-overwrite: the embedding of `d[k] = v`. -/
def insertA {α β : Type} [DecidableEq α] (l : List (α × β)) (k : α) (v : β) :
    List (α × β) :=
  (k, v) :: l.filter (fun kv => kv.1 ≠ k)

/-- Key removal: the embedding of `del d[k]`. -/
def eraseA {α β : Type} [DecidableEq α] (l : List (α × β)) (k : α) :
    List (α × β) :=
  l.filter (fun kv => kv.1 ≠ k)

/-! ### Lists as Python sets -/

/-- `s.add(x)` on a Python set, embedded on lists (no duplicate is created). -/
def addS {α : Type} [DecidableEq α] (x : α) (l : List α) : List α :=
  if x ∈ l then l else l ++ [x]

/-- `s.discard(x)`: removal of every occurrence. -/
def discardS {α : Type} [DecidableEq α] (x : α) (l : List α) : List α :=
  l.filter (fun y => y ≠ x)

/-! ### Glob patterns (Redis `KEYS` matching, `*` and `?`) -/

/-- Glob matching on character lists: `*` matches any sequence (any suffix of
the subject may continue the match), `?` any one character, every other
character only itself. -/
def globAux : List Char → List Char → Bool
  | [], s => s.isEmpty
  | p :: ps, s =>
    if p = '*' then s.tails.any (fun t => globAux ps t)
    else
      match s with
      | [] => false
      | c :: cs => (p = '?' || p = c) && globAux ps cs

/-- Glob matching on strings, as performed by the Redis `KEYS pattern`
command used in `RedisService.delete_cache`. -/
def globMatch (pattern s : String) : Bool :=
  globAux pattern.toList s.toList

/-- A pattern is literal when it holds no glob metacharacter. -/
def hasGlobChar (pattern : String) : Bool :=
  pattern.toList.any (fun c => c = '*' || c = '?')
/-! ### JSON payloads -/

/-- JSON values, as built by the Python dict literals that form message
payloads.  Objects keep field order, as Python dicts do. -/
inductive Json where
  | str : String → Json
  | num : Int → Json
  | null : Json
  | obj : List (String × Json) → Json

/-- Field access on a JSON object (`d["k"]`). -/
def Json.getField : Json → String → Option Json
  | Json.obj fields, k => lookupA fields k
  | _, _ => none

/-- The merge `{**d, k: v}`: an existing key keeps its position with the new
value, a new key is appended. -/
def Json.setField : Json → String → Json → Json
  | Json.obj fields, k, v =>
      if (lookupA fields k).isSome then
        Json.obj (fields.map (fun kv => if kv.1 = k then (kv.1, v) else kv))
      else Json.obj (fields ++ [(k, v)])
  | j, _, _ => j

/-! ### ConnectionManager state (`services/websocket_manager.py`, lines 13-151)

A `WebSocket` handle is identified by `id`; `failsSend` says whether its
`send_text` raises (the half-closed-socket failure mode).  Observable I/O is
collected as a list of `Event`s. -/

structure WebSocket where
  id : Nat
  failsSend : Bool
deriving DecidableEq, Repr

inductive Event where
  | accepted (wsId : Nat)
  | closed (wsId : Nat) (code : Nat)
  | sent (uid : Int) (wsId : Nat) (payload : Json)

/-- `Event.closed` with a given handle id, as a Boolean test. -/
def isCloseOf (wsId : Nat) : Event → Bool
  | Event.closed i _ => i = wsId
  | _ => false

structure ManagerState where
  active_connections : List (Int × WebSocket)
  subscriptions : List (Int × List String)
  channel_subscribers : List (String × List Int)
  subscriberRunning : Bool

def ManagerState.empty : ManagerState :=
  { active_connections := [], subscriptions := [], channel_subscribers := [],
    subscriberRunning := false }

/-- The forward subscription set of a user (`self.subscriptions[user_id]`,
empty when the user has no entry). -/
def subsOf (st : ManagerState) (uid : Int) : List String :=
  (lookupA st.subscriptions uid).getD []

/-- The reverse subscriber set of a channel
(`self.channel_subscribers[channel]`, empty when absent). -/
def subscribersOf (st : ManagerState) (ch : String) : List Int :=
  (lookupA st.channel_subscribers ch).getD []

/-- `ConnectionManager.disconnect` (lines 63-76): inside the
`user_id in active_connections` guard, every channel of the user's forward
set is scrubbed from the reverse index (dropping a channel that becomes
empty), then the forward entry and the connection entry are deleted. -/
def removeSubscriber (uid : Int) (cs : List (String × List Int)) (ch : String) :
    List (String × List Int) :=
  match lookupA cs ch with
  | none => cs
  | some subs =>
      let subs' := discardS uid subs
      if subs'.isEmpty then eraseA cs ch else insertA cs ch subs'

def disconnect (uid : Int) (st : ManagerState) : ManagerState :=
  if (lookupA st.active_connections uid).isSome then
    let st1 :=
      match lookupA st.subscriptions uid with
      | none => st
      | some chans =>
          { st with
            channel_subscribers := chans.foldl (removeSubscriber uid)
              st.channel_subscribers,
            subscriptions := eraseA st.subscriptions uid }
    { st1 with active_connections := eraseA st1.active_connections uid }
  else st

/-- `ConnectionManager.send_personal_message` (lines 78-86): a send to an
absent user is a silent no-op; a raising send is caught and triggers
`disconnect` of that user only. -/
def send_personal_message (message : Json) (uid : Int) (st : ManagerState) :
    ManagerState × List Event :=
  match lookupA st.active_connections uid with
  | none => (st, [])
  | some ws =>
      if ws.failsSend then (disconnect uid st, [])
      else (st, [Event.sent uid ws.id message])

/-- `ConnectionManager.subscribe_to_channel` (lines 88-100). -/
def subscribe_to_channel (uid : Int) (ch : String) (st : ManagerState) :
    ManagerState × Bool :=
  match lookupA st.subscriptions uid with
  | none => (st, false)
  | some chans =>
      let st1 := { st with subscriptions := insertA st.subscriptions uid (addS ch chans) }
      let cur := (lookupA st1.channel_subscribers ch).getD []
      ({ st1 with
          channel_subscribers := insertA st1.channel_subscribers ch (addS uid cur) },
        true)

/-- `ConnectionManager.unsubscribe_from_channel` (lines 102-110). -/
def unsubscribe_from_channel (uid : Int) (ch : String) (st : ManagerState) :
    ManagerState :=
  let st1 :=
    match lookupA st.subscriptions uid with
    | none => st
    | some chans =>
        { st with subscriptions := insertA st.subscriptions uid (discardS ch chans) }
  match lookupA st1.channel_subscribers ch with
  | none => st1
  | some subs =>
      let subs' := discardS uid subs
      if subs'.isEmpty then
        { st1 with channel_subscribers := eraseA st1.channel_subscribers ch }
      else { st1 with channel_subscribers := insertA st1.channel_subscribers ch subs' }

/-- The fan-out loop of `broadcast_to_channel` over the copied subscriber
set. -/
def broadcastLoop (message : Json) : List Int → ManagerState →
    ManagerState × List Event
  | [], st => (st, [])
  | u :: us, st =>
      let r1 := send_personal_message message u st
      let r2 := broadcastLoop message us r1.1
      (r2.1, r1.2 ++ r2.2)

/-- `ConnectionManager.broadcast_to_channel` (lines 112-117): a plain
dictionary lookup of the channel, then a send to each member of the copied
subscriber set. -/
def broadcast_to_channel (ch : String) (message : Json) (st : ManagerState) :
    ManagerState × List Event :=
  match lookupA st.channel_subscribers ch with
  | none => (st, [])
  | some subs => broadcastLoop message subs st

/-- The `connection_confirmed` payload (lines 47-51). -/
def confirmationMsg (uid : Int) (now : String) : Json :=
  Json.obj [("type", Json.str "connection_confirmed"),
            ("user_id", Json.num uid),
            ("timestamp", Json.str now)]

/-- `ConnectionManager.connect` (lines 30-61): token check, accept, then
`active_connections[user_id] = websocket` and `subscriptions[user_id] = set()`
(plain overwrites), confirmation send, lazy start of the bus listener.
Returns the new state, the Boolean result, and the emitted events. -/
def connect (verify : String → Bool) (ws : WebSocket) (uid : Int)
    (token : String) (now : String) (st : ManagerState) :
    ManagerState × Bool × List Event :=
  if !verify token then (st, false, [Event.closed ws.id 4003])
  else
    let st1 := { st with
      active_connections := insertA st.active_connections uid ws,
      subscriptions := insertA st.subscriptions uid [] }
    let r := send_personal_message (confirmationMsg uid now) uid st1
    ({ r.1 with subscriberRunning := true }, true, Event.accepted ws.id :: r.2)

/-! ### RedisService cache operations (`services/redis_service.py`)

The Redis client of `RedisService` is `none` when the startup ping failed
(line 30 sets `self.redis_client = None`).  A live client's calls can raise;
that is embedded as `Except`-valued operations.  Cached values are kept as
their serialized strings (`json.dumps` round-trips are not modelled: the
claims under study concern hit/miss/no-op behaviour, not serialization). -/

structure CacheBackend where
  setexR : String → Nat → String → Except String Bool
  getR : String → Except String (Option String)
  keysR : String → Except String (List String)
  delR : List String → Except String Nat

/-- `RedisService.set_cache` (lines 32-42): `False` without a client, the
`setex` result on success, `False` when the call raises. -/
def set_cache (client : Option CacheBackend) (key : String) (value : String)
    (ttl : Nat) : Bool :=
  match client with
  | none => false
  | some c =>
      match c.setexR key ttl value with
      | Except.ok b => b
      | Except.error _ => false

/-- `RedisService.get_cache` (lines 44-59): `None` without a client; a fetched
value passes the `if value:` truthiness test (the empty string is falsy) before
being returned; any raising call yields `None`. -/
def get_cache (client : Option CacheBackend) (key : String) : Option String :=
  match client with
  | none => none
  | some c =>
      match c.getR key with
      | Except.ok (some v) => if v = "" then none else some v
      | Except.ok none => none
      | Except.error _ => none

/-- `RedisService.delete_cache` (lines 61-73): `0` without a client; otherwise
`KEYS pattern` then `DEL` of the matches, any raising call yielding `0`. -/
def delete_cache (client : Option CacheBackend) (pattern : String) : Nat :=
  match client with
  | none => 0
  | some c =>
      match c.keysR pattern with
      | Except.error _ => 0
      | Except.ok ks =>
          if ks.isEmpty then 0
          else
            match c.delR ks with
            | Except.ok n => n
            | Except.error _ => 0

/-! ### A live key-value store, for the exact semantics of `KEYS`/`DEL`

`delete_cache` against a reachable Redis: `KEYS pattern` returns every stored
key glob-matching the pattern, `DEL` removes exactly the listed keys. -/

def Store := List (String × String)

/-- `KEYS pattern` on a live store. -/
def keysCmd (pattern : String) (st : Store) : List String :=
  (st.map Prod.fst).filter (fun k => globMatch pattern k)

/-- `DEL k...` on a live store: removes the listed keys, returns the store. -/
def delCmd (ks : List String) (st : Store) : Store :=
  st.filter (fun kv => !(ks.contains kv.1))

/-- `RedisService.delete_cache` run against a live store (lines 66-70):
`keys = KEYS pattern; if keys: DEL *keys`. -/
def delete_cache_live (pattern : String) (st : Store) : Store :=
  let ks := keysCmd pattern st
  if ks.isEmpty then st else delCmd ks st

/-- Key presence in a live store. -/
def hasKey (st : Store) (k : String) : Bool :=
  st.any (fun kv => kv.1 = k)

/-- The cache-invalidation step of `DeliveryService.update_delivery_status`
(`services/delivery_service.py`, lines 208-210):
`invalidate_user_deliveries(user_id)` deletes `deliveries:{user_id}` and the
next line deletes `context:{user_id}`. -/
def update_delivery_status_invalidation (uid : Int) (st : Store) : Store :=
  let st1 := delete_cache_live ("deliveries:" ++ toString uid) st
  delete_cache_live ("context:" ++ toString uid) st1

/-! ### Rate limiter (`RedisService.check_rate_limit`, lines 166-185)

Counter entries are `(key, (count, expiresAt))` with absolute expiry; a read
at time `t` treats an entry at or past its expiry as absent, exactly as Redis
hides a key whose TTL has elapsed. -/

structure RateStore where
  entries : List (String × Int × Nat)

def RateStore.empty : RateStore := ⟨[]⟩

/-- `GET key` at time `t`: an expired entry is a miss. -/
def rlGet (st : RateStore) (k : String) (t : Nat) : Option Int :=
  match lookupA st.entries k with
  | some (v, exp) => if t < exp then some v else none
  | none => none

/-- `SETEX key window v` at time `t`. -/
def rlSetex (st : RateStore) (k : String) (window : Nat) (v : Int) (t : Nat) :
    RateStore :=
  ⟨insertA st.entries k (v, t + window)⟩

/-- `INCR key`: increments the counter, keeping its TTL.  (`check_rate_limit`
only issues `INCR` right after a successful `GET`, so the key exists and is
unexpired on every reachable call.) -/
def rlIncr (st : RateStore) (k : String) : RateStore :=
  match lookupA st.entries k with
  | some (v, exp) => ⟨insertA st.entries k (v + 1, exp)⟩
  | none => ⟨insertA st.entries k (1, 0)⟩

/-- The rate-limit counter key `rate_limit:{user_id}:{action}`. -/
def rateKey (uid : Int) (action : String) : String :=
  "rate_limit:" ++ toString uid ++ ":" ++ action

/-- `RedisService.check_rate_limit` (lines 166-185): a missing counter is set
to 1 with the window TTL and the call is allowed; a present counter below the
limit is incremented and allowed; anything else is rejected. -/
def check_rate_limit (uid : Int) (action : String) (limit : Int)
    (window : Nat) (t : Nat) (st : RateStore) : Bool × RateStore :=
  let key := rateKey uid action
  match rlGet st key t with
  | none => (true, rlSetex st key window 1 t)
  | some current =>
      if current < limit then (true, rlIncr st key)
      else (false, st)

/-! ### Notification paths (`NotificationService.notify_delivery_status_change`,
lines 283-299, with `RedisService.publish_delivery_update`, lines 149-163, and
the bus-listener relay, lines 135-146) -/

/-- The notification dict built at lines 285-293. -/
def statusChangeNotification (order_id : String) (uid : Int)
    (old_status new_status : String) (notes : Option String) (now : String) :
    Json :=
  Json.obj [("type", Json.str "delivery_status_changed"),
            ("order_id", Json.str order_id),
            ("user_id", Json.num uid),
            ("old_status", Json.str old_status),
            ("new_status", Json.str new_status),
            ("notes", (notes.map Json.str).getD Json.null),
            ("timestamp", Json.str now)]

/-- `RedisService.publish_delivery_update` (lines 149-163): the channel is
`delivery_updates:{order_id}` and the published body is
`{**update_data, "timestamp": <publish time>}`. -/
def publish_delivery_update (order_id : String) (update_data : Json)
    (pubNow : String) : String × Json :=
  ("delivery_updates:" ++ order_id,
   update_data.setField "timestamp" (Json.str pubNow))

/-- The envelope the bus listener wraps every relayed message in before
broadcasting (lines 141-146). -/
def redisRelayMessage (channel : String) (data : Json) (relayNow : String) :
    Json :=
  Json.obj [("type", Json.str "redis_update"),
            ("channel", Json.str channel),
            ("data", data),
            ("timestamp", Json.str relayNow)]

/-- The message a client receives from the direct same-process path of
`notify_delivery_status_change` (line 299). -/
def notifyDirectMessage (order_id : String) (uid : Int)
    (old_status new_status : String) (notes : Option String) (now : String) :
    Json :=
  statusChangeNotification order_id uid old_status new_status notes now

/-- The message a client receives from the Event-Bus path of
`notify_delivery_status_change`: the notification is published (line 296) and
the listener rebroadcasts it inside the relay envelope. -/
def notifyBusMessage (order_id : String) (uid : Int)
    (old_status new_status : String) (notes : Option String)
    (now pubNow relayNow : String) : Json :=
  let published := publish_delivery_update order_id
    (statusChangeNotification order_id uid old_status new_status notes now)
    pubNow
  redisRelayMessage published.1 published.2 relayNow

/-! ### The `location_update` client-message branch
(`WebSocketHandler._handle_client_message`, lines 223-236)

Coordinates arrive as JSON numbers, embedded as rationals; the handler's
`if lat and lng:` is Python truthiness, under which a missing value and the
number zero are both falsy.  The branch's observable effects are the
`update_user_location` cache write and the `publish_delivery_update` call
(whose first argument is `location_updates:{user_id}`). -/

inductive LocationEffect where
  | cacheWrite (uid : Int) (lat lng : Rat)
  | publishUpd (channelArg : String) (uid : Int) (lat lng : Rat) (now : String)
deriving DecidableEq, Repr

/-- Python truthiness of an optional JSON number. -/
def truthyNum : Option Rat → Bool
  | none => false
  | some x => x ≠ 0

def handle_location_update (uid : Int) (lat lng : Option Rat) (now : String) :
    List LocationEffect :=
  match lat, lng with
  | some la, some ln =>
      if la ≠ 0 && ln ≠ 0 then
        [LocationEffect.cacheWrite uid la ln,
         LocationEffect.publishUpd ("location_updates:" ++ toString uid)
           uid la ln now]
      else []
  | _, _ => []


/-! ### Concrete runs used to test the claims -/

/-- Several `check_rate_limit` calls in sequence, collecting the allow/deny
answers: the shape of the spec's four-calls-then-expiry scenario. -/
def rlRun (uid : Int) (action : String) (limit : Int) (window : Nat) :
    List Nat → RateStore → List Bool × RateStore
  | [], st => ([], st)
  | t :: ts, st =>
      let r := check_rate_limit uid action limit window t st
      let rest := rlRun uid action limit window ts r.2
      (r.1 :: rest.1, rest.2)

/-- The state after: user 7 connects, subscribes to `delivery_updates:ORD1`,
then connects again on a fresh socket without an intervening disconnect. -/
def reconnectState : ManagerState :=
  (connect (fun _ => true) ⟨2, false⟩ 7 "tok" "n2"
    (subscribe_to_channel 7 "delivery_updates:ORD1"
      (connect (fun _ => true) ⟨1, false⟩ 7 "tok" "n1" ManagerState.empty).1).1).1

/-- The state after: user 1 connects and subscribes to the literal pattern
string `system_notifications:*` (any channel string is accepted by the
`subscribe` client message). -/
def wildcardState : ManagerState :=
  (subscribe_to_channel 1 "system_notifications:*"
    (connect (fun _ => true) ⟨1, false⟩ 1 "tok" "n" ManagerState.empty).1).1

/-- Two subscribers of one channel; user 2's socket raises on send. -/
def failState : ManagerState :=
  { active_connections := [(1, ⟨1, false⟩), (2, ⟨2, true⟩)],
    subscriptions := [(1, ["delivery_updates:ORD1"]),
                      (2, ["delivery_updates:ORD1"])],
    channel_subscribers := [("delivery_updates:ORD1", [1, 2])],
    subscriberRunning := true }

/-- A backend every call of which raises: the fully unreachable cache store. -/
def downBackend : CacheBackend :=
  { setexR := fun _ _ _ => Except.error "connection refused",
    getR := fun _ => Except.error "connection refused",
    keysR := fun _ => Except.error "connection refused",
    delR := fun _ => Except.error "connection refused" }

/-- A store holding delivery and context entries for users 42 and 43. -/
def twoUserStore : Store :=
  [("deliveries:42", "a"), ("deliveries:43", "b"),
   ("context:42", "c"), ("context:43", "d")]

/-- The bidirectional-consistency invariant of the subscription graph: a
channel's subscriber set holds a user exactly when that user's forward set
holds the channel. -/
def Consistent (st : ManagerState) : Prop :=
  ∀ uid ch, uid ∈ subscribersOf st ch ↔ ch ∈ subsOf st uid

/-! ### Basic lemmas about the embedded containers -/

theorem lookupA_filter_ne {α β : Type} [DecidableEq α]
    (l : List (α × β)) (k k' : α) (h : k' ≠ k) :
    lookupA (l.filter (fun kv => kv.1 ≠ k)) k' = lookupA l k' := by
  induction l with
  | nil => rfl
  | cons kv rest ih =>
    by_cases hk : kv.1 = k
    · have h1 : List.filter (fun kv => decide (kv.1 ≠ k)) (kv :: rest)
          = List.filter (fun kv => decide (kv.1 ≠ k)) rest := by
        simp [List.filter_cons, hk]
      have h2 : ¬ k' = kv.1 := by rw [hk]; exact h
      rw [h1, ih, lookupA]
      simp [h2]
    · have h1 : List.filter (fun kv => decide (kv.1 ≠ k)) (kv :: rest)
          = kv :: List.filter (fun kv => decide (kv.1 ≠ k)) rest := by
        simp [List.filter_cons, hk]
      rw [h1, lookupA, lookupA, ih]

theorem lookupA_insert_self {α β : Type} [DecidableEq α]
    (l : List (α × β)) (k : α) (v : β) :
    lookupA (insertA l k v) k = some v := by
  simp [insertA, lookupA]

theorem lookupA_insert_ne {α β : Type} [DecidableEq α]
    (l : List (α × β)) (k k' : α) (v : β) (h : k' ≠ k) :
    lookupA (insertA l k v) k' = lookupA l k' := by
  have h1 : lookupA (insertA l k v) k' =
      lookupA (l.filter (fun kv => kv.1 ≠ k)) k' := by
    show (if k' = k then some v
        else lookupA (l.filter (fun kv => kv.1 ≠ k)) k') = _
    rw [if_neg h]
  rw [h1]
  exact lookupA_filter_ne l k k' h

theorem lookupA_erase_self {α β : Type} [DecidableEq α]
    (l : List (α × β)) (k : α) :
    lookupA (eraseA l k) k = none := by
  induction l with
  | nil => rfl
  | cons kv rest ih =>
    by_cases hk : kv.1 = k
    · have h1 : eraseA (kv :: rest) k = eraseA rest k := by
        simp [eraseA, List.filter_cons, hk]
      rw [h1]; exact ih
    · have h1 : eraseA (kv :: rest) k = kv :: eraseA rest k := by
        simp [eraseA, List.filter_cons, hk]
      have h2 : ¬ k = kv.1 := fun he => hk he.symm
      rw [h1, lookupA]
      simp [h2, ih]

theorem lookupA_erase_ne {α β : Type} [DecidableEq α]
    (l : List (α × β)) (k k' : α) (h : k' ≠ k) :
    lookupA (eraseA l k) k' = lookupA l k' :=
  lookupA_filter_ne l k k' h

theorem mem_addS {α : Type} [DecidableEq α] (x y : α) (l : List α) :
    y ∈ addS x l ↔ y ∈ l ∨ y = x := by
  by_cases h : x ∈ l
  · simp only [addS, if_pos h]
    constructor
    · exact Or.inl
    · rintro (hy | hy)
      · exact hy
      · rw [hy]; exact h
  · simp [addS, h]

theorem mem_discardS {α : Type} [DecidableEq α] (x y : α) (l : List α) :
    y ∈ discardS x l ↔ y ∈ l ∧ y ≠ x := by
  simp [discardS]

theorem globAux_literal (p s : List Char)
    (h : ∀ c ∈ p, ¬(c = '*' ∨ c = '?')) :
    globAux p s = true ↔ p = s := by
  induction p generalizing s with
  | nil => cases s with
    | nil => simp [globAux]
    | cons c cs => simp [globAux]
  | cons a ps ih =>
    have ha := h a (by simp)
    have hstar : ¬(a = '*') := fun he => ha (Or.inl he)
    have hq : ¬(a = '?') := fun he => ha (Or.inr he)
    cases s with
    | nil => simp [globAux, hstar]
    | cons c cs =>
      have h' : ∀ c ∈ ps, ¬(c = '*' ∨ c = '?') := fun c hc => h c (by simp [hc])
      simp only [globAux, if_neg hstar, Bool.and_eq_true, Bool.or_eq_true,
        decide_eq_true_eq, ih cs h']
      constructor
      · rintro ⟨h1 | h1, h2⟩
        · exact absurd h1 hq
        · rw [h1, h2]
      · intro he
        injection he with h1 h2
        exact ⟨Or.inr h1, h2⟩

theorem globMatch_literal (pattern s : String)
    (h : hasGlobChar pattern = false) :
    globMatch pattern s = true ↔ pattern = s := by
  have h' : ∀ c ∈ pattern.toList, ¬(c = '*' ∨ c = '?') := by
    intro c hc
    simp [hasGlobChar] at h
    intro hor
    rcases hor with he | he
    · exact absurd (h c hc).1 (by simp [he])
    · exact absurd (h c hc).2 (by simp [he])
  rw [globMatch, globAux_literal _ _ h']
  constructor
  · intro he; exact String.ext he
  · intro he; rw [he]

/-! ### C9: zero or missing coordinates are silently dropped -/

/-- C9: a `location_update` client message whose `lat` or `lng` is missing or
equals 0 is silently dropped — no location cache write, no publish — because
the handler guards on Python truthiness of both coordinates; when both are
present and nonzero the cache write and the publish both happen. -/
theorem location_update_zero_dropped (uid : Int) (lat lng : Option Rat)
    (now : String) :
    ((truthyNum lat && truthyNum lng) = false →
      handle_location_update uid lat lng now = []) ∧
    (lat = none ∨ lat = some 0 ∨ lng = none ∨ lng = some 0 →
      handle_location_update uid lat lng now = []) ∧
    (∀ la ln : Rat, la ≠ 0 → ln ≠ 0 →
      handle_location_update uid (some la) (some ln) now =
        [LocationEffect.cacheWrite uid la ln,
         LocationEffect.publishUpd ("location_updates:" ++ toString uid)
           uid la ln now]) := by
  refine ⟨?_, ?_, ?_⟩
  · intro h
    cases lat with
    | none => rfl
    | some la =>
      cases lng with
      | none => rfl
      | some ln =>
        simp [truthyNum] at h
        by_cases hla : la = 0
        · simp [handle_location_update, hla]
        · simp [handle_location_update, h hla]
  · intro h
    rcases h with h | h | h | h <;> subst h
    · rfl
    · cases lng with
      | none => rfl
      | some ln => simp [handle_location_update]
    · cases lat with
      | none => rfl
      | some la => simp [handle_location_update]
    · cases lat with
      | none => rfl
      | some la => simp [handle_location_update]
  · intro la ln hla hln
    simp [handle_location_update, hla, hln]

/-- Witness for C9: a user on the equator (`lat = 0`) with a nonzero
longitude has the whole branch dropped. -/
theorem location_update_zero_dropped_witness :
    handle_location_update 7 (some 0) (some (77 : Rat)) "t" = [] :=
  (location_update_zero_dropped 7 (some 0) (some 77) "t").2.1
    (Or.inr (Or.inl rfl))

/-! ### C10: the first request of a window ignores the limit -/

/-- C10: when no counter key exists, `check_rate_limit` sets the counter to 1
with the window TTL and returns `True` without ever comparing against the
limit, for every limit value including zero and negative ones. -/
theorem rate_limit_first_request_always_allowed (uid : Int) (action : String)
    (limit : Int) (window t : Nat) (st : RateStore)
    (h : rlGet st (rateKey uid action) t = none) :
    check_rate_limit uid action limit window t st =
      (true, rlSetex st (rateKey uid action) window 1 t) ∧
    lookupA (check_rate_limit uid action limit window t st).2.entries
      (rateKey uid action) = some (1, t + window) := by
  constructor
  · simp [check_rate_limit, h]
  · simp [check_rate_limit, h, rlSetex, lookupA_insert_self]

/-- Witness for C10: with an empty store and the absurd limit `-5`, the first
call is still allowed. -/
theorem rate_limit_first_request_always_allowed_witness :
    check_rate_limit 1 "chat" (-5) 60 0 RateStore.empty =
      (true, rlSetex RateStore.empty (rateKey 1 "chat") 60 1 0) :=
  (rate_limit_first_request_always_allowed 1 "chat" (-5) 60 0
    RateStore.empty rfl).1

/-! ### C6: fixed-window rate limiting -/

/-- C6: the rate limiter is a fixed window: the first request of a window
sets the counter to 1 with the window TTL and allows; a later request inside
the window increments and is allowed exactly when the counter is below the
limit; with limit 3, four calls inside one window answer
`[true, true, true, false]` and a call after the window's expiry answers
`true` again. -/
theorem check_rate_limit_fixed_window (uid : Int) (action : String)
    (window : Nat) (t1 t2 t3 t4 t5 : Nat) (st : RateStore)
    (h0 : rlGet st (rateKey uid action) t1 = none)
    (h2 : t2 < t1 + window) (h3 : t3 < t1 + window) (h4 : t4 < t1 + window)
    (h5 : t1 + window ≤ t5) :
    (rlRun uid action 3 window [t1, t2, t3, t4, t5] st).1 =
      [true, true, true, false, true] ∧
    (∀ (limit : Int) (t : Nat) (st' : RateStore),
      rlGet st' (rateKey uid action) t = none →
      check_rate_limit uid action limit window t st' =
        (true, rlSetex st' (rateKey uid action) window 1 t)) ∧
    (∀ (limit c : Int) (t : Nat) (st' : RateStore),
      rlGet st' (rateKey uid action) t = some c → c < limit →
      check_rate_limit uid action limit window t st' =
        (true, rlIncr st' (rateKey uid action))) ∧
    (∀ (limit c : Int) (t : Nat) (st' : RateStore),
      rlGet st' (rateKey uid action) t = some c → limit ≤ c →
      check_rate_limit uid action limit window t st' = (false, st')) := by
  refine ⟨?_, ?_, ?_, ?_⟩
  · have e1 : check_rate_limit uid action 3 window t1 st =
        (true, RateStore.mk
          (insertA st.entries (rateKey uid action) (1, t1 + window))) := by
      simp [check_rate_limit, h0, rlSetex]
    have g2 : rlGet (RateStore.mk
        (insertA st.entries (rateKey uid action) (1, t1 + window)))
        (rateKey uid action) t2 = some 1 := by
      simp [rlGet, lookupA_insert_self, h2]
    have e2 : check_rate_limit uid action 3 window t2 (RateStore.mk
        (insertA st.entries (rateKey uid action) (1, t1 + window))) =
        (true, RateStore.mk
          (insertA (insertA st.entries (rateKey uid action) (1, t1 + window))
            (rateKey uid action) (2, t1 + window))) := by
      simp [check_rate_limit, g2, rlIncr, lookupA_insert_self]
    have g3 : rlGet (RateStore.mk
        (insertA (insertA st.entries (rateKey uid action) (1, t1 + window))
          (rateKey uid action) (2, t1 + window)))
        (rateKey uid action) t3 = some 2 := by
      simp [rlGet, lookupA_insert_self, h3]
    have e3 : check_rate_limit uid action 3 window t3 (RateStore.mk
        (insertA (insertA st.entries (rateKey uid action) (1, t1 + window))
          (rateKey uid action) (2, t1 + window))) =
        (true, RateStore.mk
          (insertA (insertA (insertA st.entries (rateKey uid action)
              (1, t1 + window)) (rateKey uid action) (2, t1 + window))
            (rateKey uid action) (3, t1 + window))) := by
      simp [check_rate_limit, g3, rlIncr, lookupA_insert_self]
    have g4 : rlGet (RateStore.mk
        (insertA (insertA (insertA st.entries (rateKey uid action)
            (1, t1 + window)) (rateKey uid action) (2, t1 + window))
          (rateKey uid action) (3, t1 + window)))
        (rateKey uid action) t4 = some 3 := by
      simp [rlGet, lookupA_insert_self, h4]
    have e4 : check_rate_limit uid action 3 window t4 (RateStore.mk
        (insertA (insertA (insertA st.entries (rateKey uid action)
            (1, t1 + window)) (rateKey uid action) (2, t1 + window))
          (rateKey uid action) (3, t1 + window))) =
        (false, RateStore.mk
          (insertA (insertA (insertA st.entries (rateKey uid action)
              (1, t1 + window)) (rateKey uid action) (2, t1 + window))
            (rateKey uid action) (3, t1 + window))) := by
      simp [check_rate_limit, g4]
    have g5 : rlGet (RateStore.mk
        (insertA (insertA (insertA st.entries (rateKey uid action)
            (1, t1 + window)) (rateKey uid action) (2, t1 + window))
          (rateKey uid action) (3, t1 + window)))
        (rateKey uid action) t5 = none := by
      simp [rlGet, lookupA_insert_self, Nat.not_lt.mpr h5]
    have e5 : (check_rate_limit uid action 3 window t5 (RateStore.mk
        (insertA (insertA (insertA st.entries (rateKey uid action)
            (1, t1 + window)) (rateKey uid action) (2, t1 + window))
          (rateKey uid action) (3, t1 + window)))).1 = true := by
      simp [check_rate_limit, g5]
    simp only [rlRun, e1, e2, e3, e4]
    simp [e5]
  · intro limit t st' h
    simp [check_rate_limit, h]
  · intro limit c t st' h hlt
    simp [check_rate_limit, h, hlt]
  · intro limit c t st' h hle
    simp [check_rate_limit, h, Int.not_lt.mpr hle]

/-- Witness for C6: user 1, action `chat`, limit 3, window 60, calls at
times 0, 1, 2, 3 and 60. -/
theorem check_rate_limit_fixed_window_witness :
    (rlRun 1 "chat" 3 60 [0, 1, 2, 3, 60] RateStore.empty).1 =
      [true, true, true, false, true] :=
  (check_rate_limit_fixed_window 1 "chat" 60 0 1 2 3 60 RateStore.empty rfl
    (by decide) (by decide) (by decide) (by decide)).1

/-! ### C7: an unreachable cache store degrades to miss/no-op -/

/-- C7: with no client at all (`redis_client is None`) and equally with a
client every call of which raises, `set_cache` answers `False`, `get_cache`
answers a miss and `delete_cache` answers 0; the operations are total, so no
error ever reaches the caller. -/
theorem cache_unreachable_degrades (key pattern value : String) (ttl : Nat)
    (c : CacheBackend) (err : String)
    (hset : ∀ k t v, c.setexR k t v = Except.error err)
    (hget : ∀ k, c.getR k = Except.error err)
    (hkeys : ∀ p, c.keysR p = Except.error err)
    (hdel : ∀ ks, c.delR ks = Except.error err) :
    set_cache none key value ttl = false ∧
    get_cache none key = none ∧
    delete_cache none pattern = 0 ∧
    set_cache (some c) key value ttl = false ∧
    get_cache (some c) key = none ∧
    delete_cache (some c) pattern = 0 := by
  refine ⟨rfl, rfl, rfl, ?_, ?_, ?_⟩
  · simp [set_cache, hset]
  · simp [get_cache, hget]
  · simp [delete_cache, hkeys]

/-- Witness for C7: the all-raising backend `downBackend`. -/
theorem cache_unreachable_degrades_witness :
    set_cache (some downBackend) "deliveries:42" "[]" 600 = false ∧
    get_cache (some downBackend) "deliveries:42" = none ∧
    delete_cache (some downBackend) "deliveries:42" = 0 :=
  ⟨(cache_unreachable_degrades "deliveries:42" "deliveries:42" "[]" 600
      downBackend "connection refused" (fun _ _ _ => rfl) (fun _ => rfl)
      (fun _ => rfl) (fun _ => rfl)).2.2.2.1,
   (cache_unreachable_degrades "deliveries:42" "deliveries:42" "[]" 600
      downBackend "connection refused" (fun _ _ _ => rfl) (fun _ => rfl)
      (fun _ => rfl) (fun _ => rfl)).2.2.2.2.1,
   (cache_unreachable_degrades "deliveries:42" "deliveries:42" "[]" 600
      downBackend "connection refused" (fun _ _ _ => rfl) (fun _ => rfl)
      (fun _ => rfl) (fun _ => rfl)).2.2.2.2.2⟩

/-! ### C4: the two delivery paths of a status-change notification -/

/-- C4 counterexample: on a concrete status change, the direct-path message
carries `type = "delivery_status_changed"` while the bus-relayed message
carries `type = "redis_update"` (the notification only appears wrapped under
`data`), so the two paths do not carry identical payload shape. -/
theorem notify_paths_shape_differ_cex :
    Json.getField
        (notifyDirectMessage "ORD1" 42 "assigned" "picked_up" none "t1")
        "type" = some (Json.str "delivery_status_changed") ∧
    Json.getField
        (notifyBusMessage "ORD1" 42 "assigned" "picked_up" none "t1" "t2" "t3")
        "type" = some (Json.str "redis_update") ∧
    notifyDirectMessage "ORD1" 42 "assigned" "picked_up" none "t1" ≠
      notifyBusMessage "ORD1" 42 "assigned" "picked_up" none "t1" "t2" "t3" := by
  refine ⟨rfl, rfl, fun h => ?_⟩
  have h2 := congrArg (fun j => Json.getField j "type") h
  simp only [] at h2
  have h3 : some (Json.str "delivery_status_changed") =
      some (Json.str "redis_update") := h2
  injection h3 with h4
  injection h4 with h5
  exact absurd h5 (by decide)

/-- C4 amended: the two delivery paths are distinguishable.  For every status
change, the direct same-process send carries the flat notification with
`type = "delivery_status_changed"`, while the bus path delivers a relay
envelope with `type = "redis_update"` whose `data` field holds the published
notification (its timestamp overwritten at publish time) and whose `channel`
field names the bus channel; the two messages are never equal. -/
theorem notify_paths_envelope_shapes (order_id : String) (uid : Int)
    (old_status new_status : String) (notes : Option String)
    (now pubNow relayNow : String) :
    Json.getField
        (notifyDirectMessage order_id uid old_status new_status notes now)
        "type" = some (Json.str "delivery_status_changed") ∧
    Json.getField
        (notifyBusMessage order_id uid old_status new_status notes now
          pubNow relayNow)
        "type" = some (Json.str "redis_update") ∧
    Json.getField
        (notifyBusMessage order_id uid old_status new_status notes now
          pubNow relayNow)
        "data" = some ((statusChangeNotification order_id uid old_status
          new_status notes now).setField "timestamp" (Json.str pubNow)) ∧
    Json.getField
        (notifyBusMessage order_id uid old_status new_status notes now
          pubNow relayNow)
        "channel" = some (Json.str ("delivery_updates:" ++ order_id)) ∧
    notifyDirectMessage order_id uid old_status new_status notes now ≠
      notifyBusMessage order_id uid old_status new_status notes now
        pubNow relayNow := by
  refine ⟨rfl, rfl, rfl, rfl, fun h => ?_⟩
  have h2 := congrArg (fun j => Json.getField j "type") h
  simp only [] at h2
  have h3 : some (Json.str "delivery_status_changed") =
      some (Json.str "redis_update") := h2
  injection h3 with h4
  injection h4 with h5
  exact absurd h5 (by decide)

/-! ### C1: connecting a second time does not close the prior socket -/

/-- C1 counterexample: user 5 connects on socket 1 and then connects again on
socket 2, both with valid tokens.  The second `connect` succeeds while user 5
already holds a registered live connection, yet no close of socket 1 is ever
emitted — the prior connection is plainly overwritten, never force-closed. -/
theorem connect_supersede_no_close_cex :
    (connect (fun _ => true) ⟨1, false⟩ 5 "tok" "n1" ManagerState.empty).2.1
      = true ∧
    lookupA (connect (fun _ => true) ⟨1, false⟩ 5 "tok" "n1"
        ManagerState.empty).1.active_connections 5 = some ⟨1, false⟩ ∧
    (connect (fun _ => true) ⟨2, false⟩ 5 "tok" "n2"
        (connect (fun _ => true) ⟨1, false⟩ 5 "tok" "n1"
          ManagerState.empty).1).2.1 = true ∧
    ((connect (fun _ => true) ⟨2, false⟩ 5 "tok" "n2"
        (connect (fun _ => true) ⟨1, false⟩ 5 "tok" "n1"
          ManagerState.empty).1).2.2.all (fun e => !isCloseOf 1 e)) = true ∧
    ((connect (fun _ => true) ⟨1, false⟩ 5 "tok" "n1"
        ManagerState.empty).2.2.all (fun e => !isCloseOf 1 e)) = true := by
  refine ⟨rfl, rfl, rfl, rfl, rfl⟩

/-- C1 amended: `connect` enforces at-most-one-reachable-handle by dictionary
overwrite alone.  After two sequential successful connects for the same user
(the newer socket healthy), exactly the newer handle is registered and every
direct send reaches it alone — but the prior socket is never closed: neither
connect emits a close event for it. -/
theorem connect_supersede_overwrites_without_close (verify : String → Bool)
    (ws1 ws2 : WebSocket) (uid : Int) (tok1 tok2 now1 now2 : String)
    (st : ManagerState)
    (h1 : verify tok1 = true) (h2 : verify tok2 = true)
    (hws2 : ws2.failsSend = false) :
    (connect verify ws1 uid tok1 now1 st).2.1 = true ∧
    (connect verify ws2 uid tok2 now2
        (connect verify ws1 uid tok1 now1 st).1).2.1 = true ∧
    lookupA (connect verify ws2 uid tok2 now2
        (connect verify ws1 uid tok1 now1 st).1).1.active_connections uid
      = some ws2 ∧
    (∀ m, send_personal_message m uid
        (connect verify ws2 uid tok2 now2
          (connect verify ws1 uid tok1 now1 st).1).1 =
      ((connect verify ws2 uid tok2 now2
          (connect verify ws1 uid tok1 now1 st).1).1,
        [Event.sent uid ws2.id m])) ∧
    ((connect verify ws2 uid tok2 now2
        (connect verify ws1 uid tok1 now1 st).1).2.2.all
      (fun e => !isCloseOf ws1.id e)) = true ∧
    ((connect verify ws1 uid tok1 now1 st).2.2.all
      (fun e => !isCloseOf ws1.id e)) = true := by
  refine ⟨?_, ?_, ?_, ?_, ?_, ?_⟩
  · simp [connect, h1]
  · simp [connect, h1, h2]
  · simp [connect, h1, h2, send_personal_message, lookupA_insert_self, hws2]
  · intro m
    simp [connect, h1, h2, send_personal_message, lookupA_insert_self, hws2]
  · simp [connect, h1, h2, send_personal_message, lookupA_insert_self, hws2,
      isCloseOf]
  · by_cases hb : ws1.failsSend
    · simp [connect, h1, send_personal_message, lookupA_insert_self, hb,
        isCloseOf]
    · simp [connect, h1, send_personal_message, lookupA_insert_self, hb,
        isCloseOf]

/-- Witness for C1's amended statement at concrete sockets and user. -/
theorem connect_supersede_overwrites_without_close_witness :
    lookupA (connect (fun _ => true) ⟨9, false⟩ 3 "tok" "n2"
        (connect (fun _ => true) ⟨8, false⟩ 3 "tok" "n1"
          ManagerState.empty).1).1.active_connections 3 = some ⟨9, false⟩ :=
  (connect_supersede_overwrites_without_close (fun _ => true) ⟨8, false⟩
    ⟨9, false⟩ 3 "tok" "tok" "n1" "n2" ManagerState.empty rfl rfl rfl).2.2.1

/-! ### Lemmas about `disconnect` and the reverse-index scrub -/

theorem disconnect_eq_of_absent (uid : Int) (st : ManagerState)
    (hAct : lookupA st.active_connections uid = none) :
    disconnect uid st = st := by
  simp [disconnect, hAct]

theorem disconnect_eq_of_noSub (uid : Int) (st : ManagerState)
    (ws : WebSocket)
    (hAct : lookupA st.active_connections uid = some ws)
    (hSub : lookupA st.subscriptions uid = none) :
    disconnect uid st =
      { st with active_connections := eraseA st.active_connections uid } := by
  simp [disconnect, hAct, hSub]

theorem disconnect_eq_of_some (uid : Int) (st : ManagerState)
    (ws : WebSocket) (chans : List String)
    (hAct : lookupA st.active_connections uid = some ws)
    (hSub : lookupA st.subscriptions uid = some chans) :
    disconnect uid st =
      { active_connections := eraseA st.active_connections uid,
        subscriptions := eraseA st.subscriptions uid,
        channel_subscribers :=
          chans.foldl (removeSubscriber uid) st.channel_subscribers,
        subscriberRunning := st.subscriberRunning } := by
  simp [disconnect, hAct, hSub]

theorem disconnect_active_self (uid : Int) (st : ManagerState) :
    lookupA (disconnect uid st).active_connections uid = none := by
  cases hAct : lookupA st.active_connections uid with
  | none => rw [disconnect_eq_of_absent uid st hAct]; exact hAct
  | some ws =>
    cases hSub : lookupA st.subscriptions uid with
    | none =>
      rw [disconnect_eq_of_noSub uid st ws hAct hSub]
      exact lookupA_erase_self _ _
    | some chans =>
      rw [disconnect_eq_of_some uid st ws chans hAct hSub]
      exact lookupA_erase_self _ _

theorem disconnect_active_ne (uid u' : Int) (st : ManagerState)
    (h : u' ≠ uid) :
    lookupA (disconnect uid st).active_connections u' =
      lookupA st.active_connections u' := by
  cases hAct : lookupA st.active_connections uid with
  | none => rw [disconnect_eq_of_absent uid st hAct]
  | some ws =>
    cases hSub : lookupA st.subscriptions uid with
    | none =>
      rw [disconnect_eq_of_noSub uid st ws hAct hSub]
      exact lookupA_erase_ne _ _ _ h
    | some chans =>
      rw [disconnect_eq_of_some uid st ws chans hAct hSub]
      exact lookupA_erase_ne _ _ _ h

theorem mem_removeSubscriber (uid u' : Int) (cs : List (String × List Int))
    (ch c : String) :
    u' ∈ (lookupA (removeSubscriber uid cs ch) c).getD [] ↔
      u' ∈ (lookupA cs c).getD [] ∧ ¬(c = ch ∧ u' = uid) := by
  unfold removeSubscriber
  cases hl : lookupA cs ch with
  | none =>
    by_cases hc : c = ch
    · subst hc; simp [hl]
    · simp [hc]
  | some subs =>
    simp only []
    by_cases he : (discardS uid subs).isEmpty = true
    · rw [if_pos he]
      by_cases hc : c = ch
      · subst hc
        have he' : discardS uid subs = [] := by simpa using he
        have hnot : ¬(u' ∈ subs ∧ ¬ u' = uid) := by
          intro hcon
          have h2 : u' ∈ discardS uid subs :=
            (mem_discardS uid u' subs).mpr ⟨hcon.1, hcon.2⟩
          rw [he'] at h2
          exact List.not_mem_nil u' h2
        rw [lookupA_erase_self]
        simp [hl]
        tauto
      · rw [lookupA_erase_ne _ _ _ hc]
        simp [hc]
    · rw [if_neg he]
      by_cases hc : c = ch
      · subst hc
        rw [lookupA_insert_self]
        simp [hl, mem_discardS]
      · rw [lookupA_insert_ne _ _ _ _ hc]
        simp [hc]

theorem mem_foldl_removeSubscriber (uid u' : Int) (L : List String)
    (cs : List (String × List Int)) (c : String) :
    u' ∈ (lookupA (L.foldl (removeSubscriber uid) cs) c).getD [] ↔
      u' ∈ (lookupA cs c).getD [] ∧ ¬(c ∈ L ∧ u' = uid) := by
  induction L generalizing cs with
  | nil => simp
  | cons ch L ih =>
    rw [List.foldl_cons, ih, mem_removeSubscriber]
    constructor
    · rintro ⟨⟨hm, h1⟩, h2⟩
      refine ⟨hm, fun hcon => ?_⟩
      rcases hcon with ⟨hc, hu⟩
      rcases List.mem_cons.mp hc with hc | hc
      · exact h1 ⟨hc, hu⟩
      · exact h2 ⟨hc, hu⟩
    · rintro ⟨hm, hcon⟩
      exact ⟨⟨hm, fun h => hcon ⟨List.mem_cons.mpr (Or.inl h.1), h.2⟩⟩,
        fun h => hcon ⟨List.mem_cons.mpr (Or.inr h.1), h.2⟩⟩

/-! ### C2: bidirectional consistency of the subscription graph -/

theorem subscribe_eq_of_none (uid : Int) (ch : String) (st : ManagerState)
    (hSub : lookupA st.subscriptions uid = none) :
    subscribe_to_channel uid ch st = (st, false) := by
  simp [subscribe_to_channel, hSub]

theorem subscribe_eq_of_some (uid : Int) (ch : String) (st : ManagerState)
    (chans : List String)
    (hSub : lookupA st.subscriptions uid = some chans) :
    subscribe_to_channel uid ch st =
      ({ st with
          subscriptions := insertA st.subscriptions uid (addS ch chans),
          channel_subscribers := insertA st.channel_subscribers ch
            (addS uid ((lookupA st.channel_subscribers ch).getD [])) },
        true) := by
  simp [subscribe_to_channel, hSub]

theorem consistent_disconnect (uid : Int) (st : ManagerState)
    (h : Consistent st) : Consistent (disconnect uid st) := by
  cases hAct : lookupA st.active_connections uid with
  | none => rw [disconnect_eq_of_absent uid st hAct]; exact h
  | some ws =>
    cases hSub : lookupA st.subscriptions uid with
    | none =>
      rw [disconnect_eq_of_noSub uid st ws hAct hSub]
      intro u' c
      exact h u' c
    | some chans =>
      rw [disconnect_eq_of_some uid st ws chans hAct hSub]
      intro u' c
      simp only [subscribersOf, subsOf]
      rw [mem_foldl_removeSubscriber uid u' chans st.channel_subscribers c]
      by_cases hu : u' = uid
      · subst hu
        rw [lookupA_erase_self]
        simp only [Option.getD_none, List.not_mem_nil, iff_false]
        rintro ⟨hm, hcon⟩
        have hc2 : c ∈ subsOf st u' := (h u' c).mp hm
        rw [subsOf, hSub] at hc2
        refine hcon ⟨hc2, ?_⟩
        trivial
      · rw [lookupA_erase_ne _ _ _ hu]
        have h2 := h u' c
        simp only [subscribersOf, subsOf] at h2
        rw [← h2]
        constructor
        · exact fun hx => hx.1
        · exact fun hx => ⟨hx, fun hcon => hu hcon.2⟩

theorem consistent_subscribe (uid : Int) (ch : String) (st : ManagerState)
    (h : Consistent st) : Consistent (subscribe_to_channel uid ch st).1 := by
  cases hSub : lookupA st.subscriptions uid with
  | none => rw [subscribe_eq_of_none uid ch st hSub]; exact h
  | some chans =>
    rw [subscribe_eq_of_some uid ch st chans hSub]
    intro u' c
    simp only [subscribersOf, subsOf]
    by_cases hc : c = ch <;> by_cases hu : u' = uid
    · subst hc; subst hu
      rw [lookupA_insert_self, lookupA_insert_self]
      simp [mem_addS]
    · subst hc
      rw [lookupA_insert_self, lookupA_insert_ne _ _ _ _ hu]
      simp only [Option.getD_some, mem_addS]
      have h2 := h u' c
      simp only [subscribersOf, subsOf] at h2
      constructor
      · rintro (hm | hm)
        · exact h2.mp hm
        · exact absurd hm hu
      · intro hm; exact Or.inl (h2.mpr hm)
    · subst hu
      rw [lookupA_insert_ne _ _ _ _ hc, lookupA_insert_self]
      simp only [Option.getD_some, mem_addS]
      have h2 := h u' c
      simp only [subscribersOf, subsOf] at h2
      rw [h2, hSub]
      simp only [Option.getD_some]
      constructor
      · exact fun hm => Or.inl hm
      · rintro (hm | hm)
        · exact hm
        · exact absurd hm hc
    · rw [lookupA_insert_ne _ _ _ _ hc, lookupA_insert_ne _ _ _ _ hu]
      exact h u' c

theorem unsubscribe_eq (uid : Int) (ch : String) (st : ManagerState) :
    unsubscribe_from_channel uid ch st =
      { st with
        subscriptions :=
          match lookupA st.subscriptions uid with
          | none => st.subscriptions
          | some chans => insertA st.subscriptions uid (discardS ch chans),
        channel_subscribers := removeSubscriber uid st.channel_subscribers ch
      } := by
  cases hS : lookupA st.subscriptions uid <;>
    cases hC : lookupA st.channel_subscribers ch <;>
      simp [unsubscribe_from_channel, removeSubscriber, hS, hC] <;>
      split <;> rfl

theorem subscribersOf_unsubscribe (uid u' : Int) (ch c : String)
    (st : ManagerState) :
    u' ∈ subscribersOf (unsubscribe_from_channel uid ch st) c ↔
      u' ∈ subscribersOf st c ∧ ¬(c = ch ∧ u' = uid) := by
  rw [unsubscribe_eq]
  exact mem_removeSubscriber uid u' st.channel_subscribers ch c

theorem subsOf_unsubscribe (uid u' : Int) (ch c : String)
    (st : ManagerState) :
    c ∈ subsOf (unsubscribe_from_channel uid ch st) u' ↔
      c ∈ subsOf st u' ∧ ¬(u' = uid ∧ c = ch) := by
  rw [unsubscribe_eq]
  simp only [subsOf]
  cases hS : lookupA st.subscriptions uid with
  | none =>
    simp only []
    by_cases hu : u' = uid
    · subst hu; rw [hS]; simp
    · simp [hu]
  | some chans =>
    simp only []
    by_cases hu : u' = uid
    · subst hu
      rw [lookupA_insert_self, hS]
      simp only [Option.getD_some, mem_discardS]
      constructor
      · rintro ⟨hm, hne⟩; exact ⟨hm, fun hcon => hne hcon.2⟩
      · rintro ⟨hm, hcon⟩
        refine ⟨hm, fun he => hcon ⟨?_, he⟩⟩
        trivial
    · rw [lookupA_insert_ne _ _ _ _ hu]
      simp [hu]

theorem consistent_unsubscribe (uid : Int) (ch : String) (st : ManagerState)
    (h : Consistent st) : Consistent (unsubscribe_from_channel uid ch st) := by
  intro u' c
  rw [subscribersOf_unsubscribe, subsOf_unsubscribe, h u' c]
  tauto

theorem consistent_connect (verify : String → Bool) (ws : WebSocket)
    (uid : Int) (tok now : String) (st : ManagerState)
    (h : Consistent st) (hEmpty : subsOf st uid = []) :
    Consistent (connect verify ws uid tok now st).1 := by
  by_cases hv : verify tok = true
  · have hst1 : Consistent { st with
        active_connections := insertA st.active_connections uid ws,
        subscriptions := insertA st.subscriptions uid [] } := by
      intro u' c
      simp only [subscribersOf, subsOf]
      by_cases hu : u' = uid
      · subst hu
        rw [lookupA_insert_self]
        simp only [Option.getD_some, List.not_mem_nil, iff_false]
        intro hm
        have h2 : c ∈ subsOf st u' := (h u' c).mp hm
        rw [hEmpty] at h2
        exact List.not_mem_nil c h2
      · rw [lookupA_insert_ne _ _ _ _ hu]
        exact h u' c
    simp only [connect, hv, Bool.not_true, Bool.false_eq_true, if_false]
    cases hws : lookupA
        (insertA st.active_connections uid ws) uid with
    | none =>
      rw [lookupA_insert_self] at hws
      exact absurd hws (by simp)
    | some w =>
      rw [lookupA_insert_self] at hws
      injection hws with hw
      subst hw
      by_cases hb : ws.failsSend
      · simp only [send_personal_message, lookupA_insert_self, hb, if_true]
        exact consistent_disconnect uid _ hst1
      · simp only [send_personal_message, lookupA_insert_self, hb,
          Bool.false_eq_true, if_false]
        exact hst1
  · have hv' : verify tok = false := by
      cases hvv : verify tok
      · rfl
      · exact absurd hvv hv
    simp only [connect, hv', Bool.not_false, if_true]
    exact h

/-- C2 amended: the bidirectional subscription-graph invariant is preserved
by `subscribe_to_channel`, `unsubscribe_from_channel` and `disconnect`, and
by `connect` when the connecting user holds no forward subscriptions; a
reconnect of a user who still holds subscriptions breaks it (the forward set
is reset to empty while the reverse index keeps the user), as the
counterexample shows. -/
theorem subscription_graph_consistency_preserved (st : ManagerState)
    (h : Consistent st) (uid : Int) (ch : String) (verify : String → Bool)
    (ws : WebSocket) (tok now : String) :
    Consistent (subscribe_to_channel uid ch st).1 ∧
    Consistent (unsubscribe_from_channel uid ch st) ∧
    Consistent (disconnect uid st) ∧
    (subsOf st uid = [] → Consistent (connect verify ws uid tok now st).1) :=
  ⟨consistent_subscribe uid ch st h,
   consistent_unsubscribe uid ch st h,
   consistent_disconnect uid st h,
   fun hEmpty => consistent_connect verify ws uid tok now st h hEmpty⟩

/-- Witness for C2's amended statement: the invariant holds after a fresh
connect-and-subscribe from the empty state. -/
theorem subscription_graph_consistency_preserved_witness :
    Consistent (subscribe_to_channel 1 "user_notifications:1"
      ManagerState.empty).1 :=
  (subscription_graph_consistency_preserved ManagerState.empty
    (fun u c => by simp [subscribersOf, subsOf, ManagerState.empty, lookupA])
    1 "user_notifications:1" (fun _ => true) ⟨1, false⟩ "tok" "now").1

/-- C2 counterexample: after connect, subscribe, reconnect (no disconnect in
between), channel `delivery_updates:ORD1` still lists user 7 while user 7's
forward set is empty — the graph is inconsistent after a `connect`. -/
theorem subscription_graph_reconnect_inconsistency_cex :
    (7 : Int) ∈ subscribersOf reconnectState "delivery_updates:ORD1" ∧
    "delivery_updates:ORD1" ∉ subsOf reconnectState 7 ∧
    ¬ Consistent reconnectState := by
  refine ⟨by decide, by decide, fun hc => ?_⟩
  exact absurd ((hc 7 "delivery_updates:ORD1").mp (by decide)) (by decide)

/-! ### Lemmas about the broadcast fan-out -/

theorem send_good (msg : Json) (u : Int) (st : ManagerState) (ws : WebSocket)
    (hl : lookupA st.active_connections u = some ws)
    (hf : ws.failsSend = false) :
    send_personal_message msg u st = (st, [Event.sent u ws.id msg]) := by
  simp [send_personal_message, hl, hf]

theorem send_fail (msg : Json) (u : Int) (st : ManagerState) (ws : WebSocket)
    (hl : lookupA st.active_connections u = some ws)
    (hf : ws.failsSend = true) :
    send_personal_message msg u st = (disconnect u st, []) := by
  simp [send_personal_message, hl, hf]

theorem send_absent (msg : Json) (u : Int) (st : ManagerState)
    (hl : lookupA st.active_connections u = none) :
    send_personal_message msg u st = (st, []) := by
  simp [send_personal_message, hl]

theorem broadcastLoop_all_good (msg : Json) (subs : List Int)
    (st : ManagerState)
    (h : ∀ u ∈ subs, ∃ ws, lookupA st.active_connections u = some ws ∧
      ws.failsSend = false) :
    (broadcastLoop msg subs st).1 = st ∧
    ∀ u ∈ subs, ∃ i, Event.sent u i msg ∈ (broadcastLoop msg subs st).2 := by
  induction subs with
  | nil => exact ⟨rfl, by simp⟩
  | cons v us ih =>
    obtain ⟨ws, hl, hf⟩ := h v (by simp)
    have hsend := send_good msg v st ws hl hf
    have ih' := ih (fun u hu => h u (by simp [hu]))
    constructor
    · simp only [broadcastLoop, hsend]
      exact ih'.1
    · intro u hu
      rcases List.mem_cons.mp hu with hu | hu
      · subst hu
        exact ⟨ws.id, by simp [broadcastLoop, hsend]⟩
      · obtain ⟨i, hi⟩ := ih'.2 u hu
        refine ⟨i, ?_⟩
        simp only [broadcastLoop, hsend]
        exact List.mem_append.mpr (Or.inr hi)

theorem broadcastLoop_sent_only (msg : Json) (subs : List Int)
    (st : ManagerState) :
    ∀ u i m, Event.sent u i m ∈ (broadcastLoop msg subs st).2 →
      u ∈ subs ∧ m = msg := by
  induction subs generalizing st with
  | nil =>
    intro u i m hm
    simp [broadcastLoop] at hm
  | cons v us ih =>
    intro u i m hm
    cases hl : lookupA st.active_connections v with
    | none =>
      have hsend := send_absent msg v st hl
      simp only [broadcastLoop, hsend, List.nil_append] at hm
      have h2 := ih st u i m hm
      exact ⟨List.mem_cons.mpr (Or.inr h2.1), h2.2⟩
    | some ws =>
      by_cases hf : ws.failsSend = true
      · have hsend := send_fail msg v st ws hl hf
        simp only [broadcastLoop, hsend, List.nil_append] at hm
        have h2 := ih (disconnect v st) u i m hm
        exact ⟨List.mem_cons.mpr (Or.inr h2.1), h2.2⟩
      · have hf' : ws.failsSend = false := by simpa using hf
        have hsend := send_good msg v st ws hl hf'
        simp only [broadcastLoop, hsend] at hm
        rcases List.mem_append.mp hm with hm | hm
        · have he := List.mem_singleton.mp hm
          injection he with h1 h2 h3
          exact ⟨List.mem_cons.mpr (Or.inl h1), h3⟩
        · have h2 := ih st u i m hm
          exact ⟨List.mem_cons.mpr (Or.inr h2.1), h2.2⟩

/-! ### C3: broadcast resolves exact matches only -/

/-- C3 counterexample: user 1 is subscribed to the wildcard pattern string
`system_notifications:*`, which glob-matches the channel
`system_notifications:all`; yet `broadcast_to_channel` on
`system_notifications:all` is a plain dictionary lookup, delivers nothing to
user 1 and emits no event at all — wildcard-match subscriptions are not
resolved by the broadcast. -/
theorem broadcast_no_wildcard_cex :
    (1 : Int) ∈ subscribersOf wildcardState "system_notifications:*" ∧
    globMatch "system_notifications:*" "system_notifications:all" = true ∧
    broadcast_to_channel "system_notifications:all" (Json.str "note")
      wildcardState = (wildcardState, []) := by
  exact ⟨by decide, by decide, rfl⟩

/-- C3 amended: `broadcast_to_channel` delivers to exactly the exact-match
subscribers of the channel: every user in the channel's subscriber set (all
sends succeeding) receives the message, and every emitted send goes to a
member of that set carrying that message — a connection not subscribed to
the exact channel string never observes it.  Wildcard resolution exists only
at the Event-Bus `psubscribe` layer, not here. -/
theorem broadcast_exact_match_delivery (ch : String) (msg : Json)
    (st : ManagerState)
    (h : ∀ u ∈ subscribersOf st ch, ∃ ws,
      lookupA st.active_connections u = some ws ∧ ws.failsSend = false) :
    (broadcast_to_channel ch msg st).1 = st ∧
    (∀ u ∈ subscribersOf st ch, ∃ i,
      Event.sent u i msg ∈ (broadcast_to_channel ch msg st).2) ∧
    (∀ u i m, Event.sent u i m ∈ (broadcast_to_channel ch msg st).2 →
      u ∈ subscribersOf st ch ∧ m = msg) := by
  unfold broadcast_to_channel
  cases hl : lookupA st.channel_subscribers ch with
  | none =>
    refine ⟨rfl, ?_, ?_⟩
    · intro u hu
      rw [subscribersOf, hl] at hu
      simp at hu
    · intro u i m hm
      simp at hm
  | some subs =>
    have hsubs : subscribersOf st ch = subs := by rw [subscribersOf, hl]; rfl
    rw [hsubs] at h ⊢
    have hloop := broadcastLoop_all_good msg subs st h
    exact ⟨hloop.1, hloop.2,
      fun u i m hm => broadcastLoop_sent_only msg subs st u i m hm⟩

/-- Witness for C3's amended statement: one healthy exact-match subscriber
receives the broadcast. -/
theorem broadcast_exact_match_delivery_witness :
    ∃ i, Event.sent 1 i (Json.str "m") ∈
      (broadcast_to_channel "system_notifications:*" (Json.str "m")
        wildcardState).2 :=
  (broadcast_exact_match_delivery "system_notifications:*" (Json.str "m")
    wildcardState
    (fun u hu => by
      have h1 : subscribersOf wildcardState "system_notifications:*" = [1] :=
        rfl
      rw [h1] at hu
      have h2 : u = 1 := by simpa using hu
      subst h2
      exact ⟨⟨1, false⟩, rfl, rfl⟩)).2.1 1 (by decide)

/-! ### C5: one failed send never aborts the rest of the fan-out -/

theorem subsOf_disconnect_self (uid : Int) (st : ManagerState)
    (ws : WebSocket)
    (hAct : lookupA st.active_connections uid = some ws) :
    subsOf (disconnect uid st) uid = [] := by
  cases hSub : lookupA st.subscriptions uid with
  | none =>
    rw [disconnect_eq_of_noSub uid st ws hAct hSub]
    simp [subsOf, hSub]
  | some chans =>
    rw [disconnect_eq_of_some uid st ws chans hAct hSub]
    simp [subsOf, lookupA_erase_self]

theorem not_mem_subscribersOf_disconnect (uid : Int) (st : ManagerState)
    (ws : WebSocket)
    (hAct : lookupA st.active_connections uid = some ws)
    (hcons : ∀ c, uid ∈ subscribersOf st c → c ∈ subsOf st uid) :
    ∀ c, uid ∉ subscribersOf (disconnect uid st) c := by
  intro c
  cases hSub : lookupA st.subscriptions uid with
  | none =>
    rw [disconnect_eq_of_noSub uid st ws hAct hSub]
    intro hm
    have h2 := hcons c hm
    rw [subsOf, hSub] at h2
    simp at h2
  | some chans =>
    rw [disconnect_eq_of_some uid st ws chans hAct hSub]
    intro hm
    simp only [subscribersOf] at hm
    have h2 := (mem_foldl_removeSubscriber uid uid chans
      st.channel_subscribers c).mp hm
    have h3 := hcons c h2.1
    rw [subsOf, hSub] at h3
    refine h2.2 ⟨h3, ?_⟩
    trivial

theorem broadcastLoop_absent_f (msg : Json) (subs : List Int)
    (st : ManagerState) (f : Int)
    (hf : lookupA st.active_connections f = none)
    (hg : ∀ u ∈ subs, u ≠ f → ∃ ws,
      lookupA st.active_connections u = some ws ∧ ws.failsSend = false) :
    (broadcastLoop msg subs st).1 = st ∧
    ∀ u ∈ subs, u ≠ f → ∃ i,
      Event.sent u i msg ∈ (broadcastLoop msg subs st).2 := by
  induction subs with
  | nil => exact ⟨rfl, by simp⟩
  | cons v us ih =>
    have ih' := ih (fun u hu hne => hg u (by simp [hu]) hne)
    by_cases hv : v = f
    · subst hv
      have hsend := send_absent msg v st hf
      constructor
      · simp only [broadcastLoop, hsend]
        exact ih'.1
      · intro u hu hne
        rcases List.mem_cons.mp hu with hu | hu
        · exact absurd hu hne
        · obtain ⟨i, hi⟩ := ih'.2 u hu hne
          refine ⟨i, ?_⟩
          simp only [broadcastLoop, hsend]
          simpa using hi
    · obtain ⟨ws, hl, hfl⟩ := hg v (by simp) hv
      have hsend := send_good msg v st ws hl hfl
      constructor
      · simp only [broadcastLoop, hsend]
        exact ih'.1
      · intro u hu hne
        rcases List.mem_cons.mp hu with hu | hu
        · subst hu
          exact ⟨ws.id, by simp [broadcastLoop, hsend]⟩
        · obtain ⟨i, hi⟩ := ih'.2 u hu hne
          refine ⟨i, ?_⟩
          simp only [broadcastLoop, hsend]
          exact List.mem_append.mpr (Or.inr hi)

theorem broadcastLoop_one_failure (msg : Json) (subs : List Int)
    (st : ManagerState) (f : Int) (wf : WebSocket)
    (hfl : lookupA st.active_connections f = some wf)
    (hwf : wf.failsSend = true)
    (hg : ∀ u ∈ subs, u ≠ f → ∃ ws,
      lookupA st.active_connections u = some ws ∧ ws.failsSend = false) :
    (broadcastLoop msg subs st).1 =
      (if f ∈ subs then disconnect f st else st) ∧
    ∀ u ∈ subs, u ≠ f → ∃ i,
      Event.sent u i msg ∈ (broadcastLoop msg subs st).2 := by
  induction subs with
  | nil => exact ⟨by simp [broadcastLoop], by simp⟩
  | cons v us ih =>
    by_cases hv : v = f
    · subst hv
      have hsend := send_fail msg v st wf hfl hwf
      have hfd : lookupA (disconnect v st).active_connections v = none :=
        disconnect_active_self v st
      have hg' : ∀ u ∈ us, u ≠ v → ∃ ws,
          lookupA (disconnect v st).active_connections u = some ws ∧
            ws.failsSend = false := by
        intro u hu hne
        obtain ⟨ws, hl, hf2⟩ := hg u (by simp [hu]) hne
        exact ⟨ws, by rw [disconnect_active_ne v u st hne]; exact hl, hf2⟩
      have habs := broadcastLoop_absent_f msg us (disconnect v st) v hfd hg'
      constructor
      · simp only [broadcastLoop, hsend]
        rw [habs.1]
        simp
      · intro u hu hne
        rcases List.mem_cons.mp hu with hu | hu
        · exact absurd hu hne
        · obtain ⟨i, hi⟩ := habs.2 u hu hne
          refine ⟨i, ?_⟩
          simp only [broadcastLoop, hsend]
          simpa using hi
    · obtain ⟨ws, hl, hf2⟩ := hg v (by simp) hv
      have hsend := send_good msg v st ws hl hf2
      have ih' := ih (fun u hu hne => hg u (by simp [hu]) hne)
      have hiff : f ∈ v :: us ↔ f ∈ us := by
        rw [List.mem_cons]
        constructor
        · rintro (h | h)
          · exact absurd h.symm hv
          · exact h
        · exact Or.inr
      constructor
      · simp only [broadcastLoop, hsend]
        rw [ih'.1]
        by_cases hm : f ∈ us
        · rw [if_pos hm, if_pos (hiff.mpr hm)]
        · rw [if_neg hm, if_neg (fun h => hm (hiff.mp h))]
      · intro u hu hne
        rcases List.mem_cons.mp hu with hu | hu
        · subst hu
          exact ⟨ws.id, by simp [broadcastLoop, hsend]⟩
        · obtain ⟨i, hi⟩ := ih'.2 u hu hne
          refine ⟨i, ?_⟩
          simp only [broadcastLoop, hsend]
          exact List.mem_append.mpr (Or.inr hi)

/-- C5: when delivery to one subscriber fails during a broadcast, that
subscriber alone is disconnected — its connection entry vanishes and every
subscription-graph edge of it is removed — while every other subscriber of
the channel still receives the message and keeps its connection. -/
theorem broadcast_failure_isolation (ch : String) (msg : Json)
    (st : ManagerState) (f : Int) (wf : WebSocket)
    (hmem : f ∈ subscribersOf st ch)
    (hf : lookupA st.active_connections f = some wf)
    (hwf : wf.failsSend = true)
    (hg : ∀ u ∈ subscribersOf st ch, u ≠ f → ∃ ws,
      lookupA st.active_connections u = some ws ∧ ws.failsSend = false)
    (hcons : ∀ c, f ∈ subscribersOf st c → c ∈ subsOf st f) :
    (∀ u ∈ subscribersOf st ch, u ≠ f → ∃ i,
      Event.sent u i msg ∈ (broadcast_to_channel ch msg st).2) ∧
    lookupA (broadcast_to_channel ch msg st).1.active_connections f = none ∧
    subsOf (broadcast_to_channel ch msg st).1 f = [] ∧
    (∀ c, f ∉ subscribersOf (broadcast_to_channel ch msg st).1 c) ∧
    (∀ u, u ≠ f →
      lookupA (broadcast_to_channel ch msg st).1.active_connections u =
        lookupA st.active_connections u) := by
  unfold broadcast_to_channel
  cases hl : lookupA st.channel_subscribers ch with
  | none =>
    rw [subscribersOf, hl] at hmem
    simp at hmem
  | some subs =>
    have hsubs : subscribersOf st ch = subs := by rw [subscribersOf, hl]; rfl
    rw [hsubs] at hmem hg ⊢
    have hloop := broadcastLoop_one_failure msg subs st f wf hf hwf hg
    have hstate : (broadcastLoop msg subs st).1 = disconnect f st := by
      rw [hloop.1, if_pos hmem]
    refine ⟨hloop.2, ?_, ?_, ?_, ?_⟩
    · rw [hstate]
      exact disconnect_active_self f st
    · rw [hstate]
      exact subsOf_disconnect_self f st wf hf
    · rw [hstate]
      exact not_mem_subscribersOf_disconnect f st wf hf hcons
    · intro u hne
      rw [hstate]
      exact disconnect_active_ne f u st hne

/-- Witness for C5: in `failState`, broadcasting to the shared channel still
delivers to healthy user 1, tears down only failing user 2, and leaves user
1's connection registered. -/
theorem broadcast_failure_isolation_witness :
    (∃ i, Event.sent 1 i (Json.str "m") ∈
      (broadcast_to_channel "delivery_updates:ORD1" (Json.str "m")
        failState).2) ∧
    lookupA (broadcast_to_channel "delivery_updates:ORD1" (Json.str "m")
      failState).1.active_connections 2 = none ∧
    lookupA (broadcast_to_channel "delivery_updates:ORD1" (Json.str "m")
      failState).1.active_connections 1 = some ⟨1, false⟩ := by
  have h := broadcast_failure_isolation "delivery_updates:ORD1"
    (Json.str "m") failState 2 ⟨2, true⟩ (by decide) rfl rfl
    (fun u hu hne => by
      have h1 : subscribersOf failState "delivery_updates:ORD1" = [1, 2] :=
        rfl
      rw [h1] at hu
      rcases (by simpa using hu : u = 1 ∨ u = 2) with h2 | h2
      · subst h2
        exact ⟨⟨1, false⟩, rfl, rfl⟩
      · exact absurd h2 hne)
    (fun c hc => by
      by_cases hcc : c = "delivery_updates:ORD1"
      · subst hcc
        decide
      · simp [failState, subscribersOf, lookupA, hcc] at hc)
  refine ⟨h.1 1 (by decide) (by decide), h.2.1, ?_⟩
  rw [h.2.2.2.2 1 (by decide)]
  rfl

/-! ### C8: targeted invalidation removes exactly the matching keys -/

theorem hasKey_iff (st : Store) (k : String) :
    hasKey st k = true ↔ k ∈ st.map Prod.fst := by
  simp [hasKey, List.any_eq_true]

theorem mem_keysCmd (pattern k : String) (st : Store) :
    k ∈ keysCmd pattern st ↔
      k ∈ st.map Prod.fst ∧ globMatch pattern k = true := by
  simp [keysCmd, List.mem_filter]

theorem hasKey_delCmd (ks : List String) (st : Store) (k : String) :
    hasKey (delCmd ks st) k = true ↔ hasKey st k = true ∧ k ∉ ks := by
  simp only [hasKey, delCmd, List.any_eq_true, List.mem_filter,
    decide_eq_true_eq, Bool.not_eq_true']
  constructor
  · rintro ⟨kv, ⟨hm, hc⟩, he⟩
    rw [he] at hc
    simp at hc
    exact ⟨⟨kv, hm, he⟩, hc⟩
  · rintro ⟨⟨kv, hm, he⟩, hk⟩
    refine ⟨kv, ⟨hm, ?_⟩, he⟩
    rw [he]
    simp [hk]

theorem hasKey_delete_cache_live (pattern k : String) (st : Store) :
    hasKey (delete_cache_live pattern st) k = true ↔
      hasKey st k = true ∧ globMatch pattern k = false := by
  unfold delete_cache_live
  by_cases he : (keysCmd pattern st).isEmpty = true
  · rw [if_pos he]
    have he' : keysCmd pattern st = [] := by simpa using he
    constructor
    · intro h
      refine ⟨h, ?_⟩
      cases hgm : globMatch pattern k with
      | false => rfl
      | true =>
        have hk : k ∈ keysCmd pattern st :=
          (mem_keysCmd pattern k st).mpr ⟨(hasKey_iff st k).mp h, hgm⟩
        rw [he'] at hk
        exact absurd hk (List.not_mem_nil k)
    · exact fun h => h.1
  · rw [if_neg he]
    rw [hasKey_delCmd]
    constructor
    · rintro ⟨h1, h2⟩
      refine ⟨h1, ?_⟩
      cases hgm : globMatch pattern k with
      | false => rfl
      | true =>
        exact absurd ((mem_keysCmd pattern k st).mpr
          ⟨(hasKey_iff st k).mp h1, hgm⟩) h2
    · rintro ⟨h1, h2⟩
      refine ⟨h1, fun hk => ?_⟩
      have h3 := (mem_keysCmd pattern k st).mp hk
      rw [h2] at h3
      exact absurd h3.2 (by simp)

/-- C8: `delete_cache(pattern)` removes exactly the keys glob-matching the
pattern and no others; the cache-invalidation step of
`update_delivery_status` for user U removes exactly U's `deliveries:{U}` and
`context:{U}` keys and leaves every other key — any other user's keys in
particular — untouched. -/
theorem cache_invalidation_frame (pattern k : String) (st : Store)
    (uid : Int)
    (hd : hasGlobChar ("deliveries:" ++ toString uid) = false)
    (hc : hasGlobChar ("context:" ++ toString uid) = false) :
    (hasKey (delete_cache_live pattern st) k = true ↔
      hasKey st k = true ∧ globMatch pattern k = false) ∧
    (hasKey (update_delivery_status_invalidation uid st) k = true ↔
      hasKey st k = true ∧ ¬(k = "deliveries:" ++ toString uid) ∧
        ¬(k = "context:" ++ toString uid)) := by
  have hglit : ∀ p s : String, hasGlobChar p = false →
      (globMatch p s = false ↔ ¬ p = s) := by
    intro p s hp
    rw [Bool.eq_false_iff, Ne, globMatch_literal p s hp]
  refine ⟨hasKey_delete_cache_live pattern k st, ?_⟩
  unfold update_delivery_status_invalidation
  rw [hasKey_delete_cache_live, hasKey_delete_cache_live,
    hglit _ _ hd, hglit _ _ hc]
  constructor
  · rintro ⟨⟨h1, h2⟩, h3⟩
    exact ⟨h1, fun he => h2 he.symm, fun he => h3 he.symm⟩
  · rintro ⟨h1, h2, h3⟩
    exact ⟨⟨h1, fun he => h2 he.symm⟩, fun he => h3 he.symm⟩

/-- Witness for C8: user 42's status update removes `deliveries:42` while
`deliveries:43` and `context:43` survive. -/
theorem cache_invalidation_frame_witness :
    hasKey (update_delivery_status_invalidation 42 twoUserStore)
      "deliveries:43" = true ∧
    hasKey (update_delivery_status_invalidation 42 twoUserStore)
      "deliveries:42" = false ∧
    hasKey (update_delivery_status_invalidation 42 twoUserStore)
      "context:43" = true := by
  have h43 := (cache_invalidation_frame "x" "deliveries:43" twoUserStore 42
    (by decide) (by decide)).2
  have h42 := (cache_invalidation_frame "x" "deliveries:42" twoUserStore 42
    (by decide) (by decide)).2
  have hc43 := (cache_invalidation_frame "x" "context:43" twoUserStore 42
    (by decide) (by decide)).2
  refine ⟨h43.mpr ⟨by decide, by decide, by decide⟩, ?_,
    hc43.mpr ⟨by decide, by decide, by decide⟩⟩
  cases hb : hasKey (update_delivery_status_invalidation 42 twoUserStore)
      "deliveries:42" with
  | false => rfl
  | true => exact absurd (h42.mp hb).2.1 (by simp; decide)
